import Mathlib

/-!
# Shallow embedding of the revalidation route handlers

This file embeds the runtime logic of the repository's HTTP route handlers:

* `pages/api/revalidate.ts` — on-demand revalidation by `tag` / `path` query
  parameters, guarded by an optional shared secret;
* the `/api/revalidate-all` handler — gathers site paths, deduplicates them
  with a JS `Set`, and revalidates them in sequential batches of 10;
* the `/api/webhook/magento` handler — translates a Magento webhook payload
  into site paths and revalidates each.

Strings are modelled as `List Char` (`Str`); JavaScript truthiness of strings
(`""` is falsy) and of `undefined` (absent `Option` values) is modelled
explicitly.  Outbound calls (`res.revalidate`, `fetch`) are modelled as
oracles mapping a path to its outcome, since their behaviour is external to
this repository.
-/

/-- Strings of the embedded program: JavaScript strings as lists of characters. -/
abbrev Str := List Char

/-- Convenience conversion from a Lean string literal to `Str`. -/
def chars (s : String) : Str := s.toList

/-- JS `[...new Set(l)]`: deduplication keeping the first occurrence of each
element, in first-seen order (JS `Set` iterates in insertion order). -/
def setDedup : List Str → List Str
  | [] => []
  | x :: xs => x :: setDedup (xs.filter (· ≠ x))
termination_by l => l.length
decreasing_by
  simp only [List.length_cons]
  exact Nat.lt_succ_of_le (xs.length_filter_le _)

/-- The chunking loop of `/api/revalidate-all`:
`for (let i = 0; i < l.length; i += n) { batch = l.slice(i, i + n); ... }`.
Returns the successive batches `l.slice(0,n), l.slice(n,2n), …`.
(`n = 0` is guarded to return `[]`; the program only uses `n = 10`.) -/
def chunksOf (n : Nat) (l : List Str) : List (List Str) :=
  if h : n = 0 ∨ l = [] then []
  else l.take n :: chunksOf n (l.drop n)
termination_by l.length
decreasing_by
  push_neg at h
  have hn : 0 < n := Nat.pos_of_ne_zero h.1
  have hl : 0 < l.length := List.length_pos.mpr h.2
  simp only [List.length_drop]
  omega

/-- An element is in the deduplicated list exactly when it was in the input. -/
theorem mem_setDedup (a : Str) (l : List Str) : a ∈ setDedup l ↔ a ∈ l := by
  induction l using setDedup.induct with
  | case1 => simp [setDedup]
  | case2 x xs ih =>
    rw [setDedup]
    simp only [List.mem_cons, ih, List.mem_filter]
    by_cases hax : a = x <;> simp [hax]

/-- JS `Set` deduplication produces a list without duplicates. -/
theorem nodup_setDedup (l : List Str) : (setDedup l).Nodup := by
  induction l using setDedup.induct with
  | case1 => simp [setDedup]
  | case2 x xs ih =>
    rw [setDedup]
    refine List.nodup_cons.mpr ⟨?_, ih⟩
    intro hx
    have := (mem_setDedup x _).mp hx
    simp at this

/-- The concatenation of the batches is the input list: the batch loop visits
every path exactly as often as it occurs in `l`. -/
theorem chunksOf_join (n : Nat) (hn : n ≠ 0) (l : List Str) :
    (chunksOf n l).flatten = l := by
  induction l using chunksOf.induct n with
  | case1 l hl =>
    rcases hl with hl | hl
    · exact absurd hl hn
    · subst hl; simp [chunksOf]
  | case2 l h ih =>
    rw [chunksOf, dif_neg h]
    simp [List.flatten, ih]

/-- The batch loop performs `⌈L/n⌉` iterations on a list of length `L`
(for a positive batch size `n`; in `Nat`, `⌈L/n⌉ = (L + (n-1)) / n`). -/
theorem chunksOf_length (n : Nat) (hn : n ≠ 0) (l : List Str) :
    (chunksOf n l).length = (l.length + (n - 1)) / n := by
  have hn' : 0 < n := Nat.pos_of_ne_zero hn
  induction l using chunksOf.induct n with
  | case1 l hl =>
    rcases hl with hl | hl
    · exact absurd hl hn
    · subst hl
      have hnil : chunksOf n [] = [] := by rw [chunksOf]; exact dif_pos (Or.inr rfl)
      rw [hnil, List.length_nil, List.length_nil, Nat.zero_add, Nat.div_eq_of_lt (by omega)]
  | case2 l h ih =>
    push_neg at h
    rw [chunksOf, dif_neg (by push_neg; exact h)]
    have hl : 0 < l.length := List.length_pos.mpr h.2
    simp only [List.length_cons, ih, List.length_drop]
    rcases Nat.lt_or_ge l.length n with hc | hc
    · rw [Nat.sub_eq_zero_of_le (Nat.le_of_lt hc)]
      have h1 : (l.length + (n - 1)) / n = 1 := Nat.div_eq_of_lt_le (by omega) (by omega)
      rw [Nat.div_eq_of_lt (by omega), h1]
    · have hrw : l.length + (n - 1) = (l.length - n + (n - 1)) + n := by omega
      rw [hrw, Nat.add_div_right _ hn']

/-- Observable events of the batch loop of `/api/revalidate-all`: a
revalidation call being issued for a path, and that call settling
(success or failure). -/
inductive BatchEv where
  | issue (p : Str)
  | settle (p : Str)
deriving DecidableEq

/-- The events of one wave (`await Promise.all(batch.map(...))`), tagged
with the wave index: all calls of the batch are issued, then the loop
waits until every one of them has settled.  The relative order of the
settle events within a wave is not determined by the program; the model
fixes list order, and no theorem below depends on intra-wave order. -/
def waveTrace (i : Nat) (b : List Str) : List (Nat × BatchEv) :=
  b.map (fun p => (i, BatchEv.issue p)) ++ b.map (fun p => (i, BatchEv.settle p))

/-- The event trace of the sequential batch loop, starting at wave `i`. -/
def traceFrom (i : Nat) : List (List Str) → List (Nat × BatchEv)
  | [] => []
  | b :: bs => waveTrace i b ++ traceFrom (i + 1) bs

/-- The full event trace of the `/api/revalidate-all` batch loop on the
deduplicated path list `l`: waves of at most 10 paths, processed in order. -/
def batchTrace (l : List Str) : List (Nat × BatchEv) :=
  traceFrom 0 (chunksOf 10 l)

/-- Every event of `traceFrom i bs` belongs to a wave numbered at least `i`. -/
theorem traceFrom_wave_le (i : Nat) (bs : List (List Str)) :
    ∀ e ∈ traceFrom i bs, i ≤ e.1 := by
  induction bs generalizing i with
  | nil => simp [traceFrom]
  | cons b bs ih =>
    intro e he
    rw [traceFrom, List.mem_append] at he
    rcases he with he | he
    · rcases List.mem_append.mp he with he | he <;>
      · obtain ⟨p, _, rfl⟩ := List.mem_map.mp he
        exact Nat.le_refl i
    · exact Nat.le_of_succ_le (ih (i + 1) e he)

/-- The trace is sorted by wave index: an event of a later wave never
occurs before an event of an earlier wave.  In particular no `issue` of
wave `j` precedes a `settle` of wave `i` when `i < j`. -/
theorem traceFrom_pairwise (i : Nat) (bs : List (List Str)) :
    (traceFrom i bs).Pairwise (fun a b => a.1 ≤ b.1) := by
  induction bs generalizing i with
  | nil => simp [traceFrom]
  | cons b bs ih =>
    rw [traceFrom]
    refine List.pairwise_append.mpr ⟨?_, ih (i + 1), ?_⟩
    · have hall : ∀ e ∈ waveTrace i b, e.1 = i := by
        intro e he
        rcases List.mem_append.mp he with he | he <;>
        · obtain ⟨p, _, rfl⟩ := List.mem_map.mp he
          rfl
      exact List.pairwise_of_forall_mem_list
        (fun a ha c hc => by rw [hall _ ha, hall _ hc])
    · intro a ha c hc
      have h1 : a.1 = i := by
        rcases List.mem_append.mp ha with h | h <;>
        · obtain ⟨p, _, rfl⟩ := List.mem_map.mp h
          rfl
      have h2 := traceFrom_wave_le (i + 1) bs c hc
      omega

/-- JS `String.prototype.replace` with a plain-string pattern: replaces the
first (leftmost) occurrence of `pat` in `s` by `rep`; if `pat` does not
occur, returns `s` unchanged. -/
def replaceFirst (s pat rep : Str) : Str :=
  match s with
  | [] => if pat = [] then rep else []
  | c :: rest =>
    if pat.isPrefixOf s then rep ++ s.drop pat.length
    else c :: replaceFirst rest pat rep

/-- When the string starts with the pattern, `replace` drops exactly that
prefix (the leftmost occurrence is at position 0). -/
theorem replaceFirst_at_start (pat x rep : Str) :
    replaceFirst (pat ++ x) pat rep = rep ++ x := by
  cases hpx : pat ++ x with
  | nil =>
    rw [List.append_eq_nil] at hpx
    rw [replaceFirst.eq_def]
    simp [hpx.1, hpx.2]
  | cons c rest =>
    have hpre : pat.isPrefixOf (pat ++ x) = true :=
      List.isPrefixOf_iff_prefix.mpr (List.prefix_append pat x)
    rw [replaceFirst]
    rw [← hpx, if_pos hpre, List.drop_left]

/-- The tag-to-path translation loop of `pages/api/revalidate.ts`
(lines 74–95): `product:`-prefixed tags become `/p/<rest>`, `category:`-
prefixed tags become `/<rest>`, bare `product` / `category` tags and any
other tag are logged only and yield no path. -/
def tagToPaths (t : Str) : List Str :=
  if (chars "product:").isPrefixOf t then
    [chars "/p/" ++ replaceFirst t (chars "product:") []]
  else if (chars "category:").isPrefixOf t then
    [chars "/" ++ replaceFirst t (chars "category:") []]
  else if t = chars "product" then []
  else if t = chars "category" then []
  else []

/-- A Next.js query-parameter value as seen by a handler: absent, a single
string, or an array of strings (repeated parameter). -/
inductive QueryVal where
  | none
  | str (s : Str)
  | arr (l : List Str)
deriving DecidableEq

/-- JS truthiness of a query value: `undefined` and `""` are falsy; any
non-empty string and any array (even empty) are truthy. -/
def QueryVal.truthy : QueryVal → Bool
  | .none => false
  | .str s => !s.isEmpty
  | .arr _ => true

/-- `Array.isArray(v) ? v : [v]` — normalisation used by the handler for the
`tag` and `path` parameters (only reached when the value is truthy). -/
def QueryVal.toStrings : QueryVal → List Str
  | .none => []
  | .str s => [s]
  | .arr l => l

/-- JS `a || b` applied to `req.query.secret || req.headers['x-revalidate-secret']`:
the header (a string when present) is consulted only when the query value is falsy. -/
def jsOr (q : QueryVal) (h : Option Str) : QueryVal :=
  if q.truthy then q else match h with | some s => .str s | none => .none

/-- JS strict equality `v === e` between the supplied secret value and the
environment string: only a string equal to `e` matches (`undefined` and
arrays never do). -/
def secretMatches (e : Str) (v : QueryVal) : Bool :=
  match v with
  | .str s => s == e
  | _ => false

/-- JS truthiness of `process.env.X` / an optional string field: present and
non-empty. -/
def oTruthy : Option Str → Bool
  | some s => !s.isEmpty
  | Option.none => false

/-- A handler response: `.ok body` is `res.json(body)` (HTTP 200), `.err s e`
is `res.status(s).json({ error: e })`. -/
inductive ApiResponse (β : Type) where
  | ok (body : β)
  | err (status : Nat) (error : Str)
deriving DecidableEq

/-- The HTTP status code of a response (`res.json` defaults to 200). -/
def ApiResponse.statusCode {β : Type} : ApiResponse β → Nat
  | .ok _ => 200
  | .err s _ => s

/-- Decimal rendering of a number, as JS template interpolation `${n}` does. -/
def natStr (n : Nat) : Str := Nat.toDigits 10 n

/-- Response body of `pages/api/revalidate.ts` (`RevalidateResponse`). -/
structure RevalidateBody where
  revalidated : Bool
  now : Nat
  message : Str
deriving DecidableEq

/-- The body of the `try` block of `pages/api/revalidate.ts` (lines 37–115):
the `path` branch, the `tag` branch and the 400 fallback.  `canRevalidate p`
models whether `await res.revalidate(p)` succeeds (external to this code);
the handler collects the paths whose revalidation succeeded, in order.
All query values are strings, so the `typeof p === 'string'` guards always
hold in the model. -/
def revalidateCore (qtag qpath : QueryVal) (canRevalidate : Str → Bool)
    (now : Nat) : ApiResponse RevalidateBody :=
  if qpath.truthy then
    let paths := qpath.toStrings
    let revalidatedPaths := paths.filter canRevalidate
    .ok ⟨true, now,
      chars "Revalidated " ++ natStr revalidatedPaths.length ++ chars " paths: "
        ++ List.intercalate (chars ", ") revalidatedPaths⟩
  else if qtag.truthy then
    let tags := qtag.toStrings
    let paths := tags.flatMap tagToPaths
    let revalidatedPaths := paths.filter canRevalidate
    .ok ⟨true, now,
      chars "Revalidated " ++ natStr revalidatedPaths.length
        ++ chars " paths from tags: " ++ List.intercalate (chars ", ") tags⟩
  else .err 400 (chars "Missing tag or path parameter")

/-- The secret guard of `pages/api/revalidate.ts` (lines 30–35): the request
is accepted when `process.env.REVALIDATE_SECRET` is falsy (unset or empty),
or when `req.query.secret || req.headers['x-revalidate-secret']` is strictly
equal to it. -/
def secretAccepts (env : Option Str) (q : QueryVal) (h : Option Str) : Bool :=
  match env with
  | some e => e.isEmpty || secretMatches e (jsOr q h)
  | Option.none => true

/-- The full handler of `pages/api/revalidate.ts`.  Note that the source
never consults `req.method`: there is no method check in this handler, so
the `method` argument is unused, faithfully to the code.  The secret guard
runs first; when it rejects, the handler returns 401 before looking at any
other parameter. -/
def revalidateHandler (method : Str) (env : Option Str) (qsecret : QueryVal)
    (hsecret : Option Str) (qtag qpath : QueryVal) (canRevalidate : Str → Bool)
    (now : Nat) : ApiResponse RevalidateBody :=
  if secretAccepts env qsecret hsecret then revalidateCore qtag qpath canRevalidate now
  else .err 401 (chars "Invalid secret token")

/-- The `data` object of a Magento webhook payload: the fields the handler
consults, each possibly absent. -/
structure WebhookData where
  url_key : Option Str
  sku : Option Str
  url_path : Option Str
  uid : Option Str
  identifier : Option Str
deriving DecidableEq

/-- A `WebhookData` with no fields set. -/
def WebhookData.empty : WebhookData :=
  ⟨Option.none, Option.none, Option.none, Option.none, Option.none⟩

/-- The path-translation part of the webhook handler (`/api/webhook/magento`,
lines 43–90): each `if (entity === …)` block appends its paths to `paths`.

* `product` with a truthy `data?.url_key` pushes `/p/<url_key>` (a `sku`
  without `url_key` only logs a warning and pushes nothing);
* `category` with a truthy `data?.url_path` pushes `url_path`, prefixed
  with `/` unless it already starts with one;
* `page` / `cms_page` with a truthy `data?.identifier` pushes
  `/<identifier>`;
* `menu` / `layout` and every other entity push nothing. -/
def webhookPaths (entity : Str) (data : Option WebhookData) : List Str :=
  (if entity == chars "product" && oTruthy (data.bind WebhookData.url_key) then
      [chars "/p/" ++ (data.bind WebhookData.url_key).getD []]
    else []) ++
  (if entity == chars "category" && oTruthy (data.bind WebhookData.url_path) then
      (let up := (data.bind WebhookData.url_path).getD []
       if (chars "/").isPrefixOf up then [up] else [chars "/" ++ up])
    else []) ++
  (if (entity == chars "page" || entity == chars "cms_page")
      && oTruthy (data.bind WebhookData.identifier) then
      [chars "/" ++ (data.bind WebhookData.identifier).getD []]
    else [])

/-- Response body of the webhook handler on success. -/
structure WebhookBody where
  success : Bool
  message : Str
deriving DecidableEq

/-- The `/api/webhook/magento` handler: rejects non-POST methods with 405,
requires truthy `entity` and `action` (400 otherwise), translates the
payload to paths, answers 400 when no path was produced, otherwise
revalidates each path via `fetch` on `/api/revalidate` (`fetchOk p` models
`response.ok` of that call) and reports the number of successes. -/
def webhookHandler (method : Str) (entity action : Option Str)
    (data : Option WebhookData) (fetchOk : Str → Bool) : ApiResponse WebhookBody :=
  if !(method == chars "POST") then .err 405 (chars "Method not allowed")
  else if !oTruthy entity || !oTruthy action then
    .err 400 (chars "Missing entity or action")
  else
    let paths := webhookPaths (entity.getD []) data
    if paths.isEmpty then .err 400 (chars "Unknown entity type or missing path data")
    else
      let revalidatedPaths := paths.filter fetchOk
      .ok ⟨true, chars "Revalidated " ++ natStr revalidatedPaths.length ++ chars " paths"⟩

/-- Outcome of one `fetch` to the revalidation endpoint inside the
`/api/revalidate-all` batch loop: `response.ok`, a non-ok response with
body text `t`, or a thrown error with message `m`. -/
inductive FetchOut where
  | success
  | httpError (t : Str)
  | thrown (m : Str)
deriving DecidableEq

/-- Error message pushed for a non-ok response (line 195 of the handler). -/
def failedMsg (p t : Str) : Str :=
  chars "Failed to revalidate " ++ p ++ chars ": " ++ t

/-- Error message pushed for a thrown error (line 198 of the handler). -/
def errorMsg (p m : Str) : Str :=
  chars "Error revalidating " ++ p ++ chars ": " ++ m

/-- Effect of one revalidation call on the accumulated
`(revalidatedCount, errors)` state of `/api/revalidate-all`. -/
def raStep (outcome : Str → FetchOut) (acc : Nat × List Str) (p : Str) :
    Nat × List Str :=
  match outcome p with
  | .success => (acc.1 + 1, acc.2)
  | .httpError t => (acc.1, acc.2 ++ [failedMsg p t])
  | .thrown m => (acc.1, acc.2 ++ [errorMsg p m])

/-- The batch loop of `/api/revalidate-all` (lines 175–202): processes the
batches in order, accumulating the success count and error messages.
Within a batch the calls run concurrently; since each call's effect on the
accumulator is independent of the others (JS is single-threaded, so the
increments and pushes do not race), the model applies them in list order. -/
def runBatches (outcome : Str → FetchOut) (bs : List (List Str)) : Nat × List Str :=
  bs.foldl (fun acc b => b.foldl (raStep outcome) acc) (0, [])

/-- Success response body of `/api/revalidate-all` (`RevalidateAllResponse`,
with the nested `revalidated` counts flattened into three fields). -/
structure RevalidateAllBody where
  success : Bool
  message : Str
  products : Nat
  categories : Nat
  total : Nat
  errors : Option (List Str)
deriving DecidableEq

/-- The `/api/revalidate-all` handler: 405 for methods other than GET/POST;
otherwise deduplicate the gathered paths with `new Set`, revalidate them in
sequential batches of 10, and answer with the aggregate counts and the
first 10 error messages (the `errors` field is present only when at least
one error occurred).  `allPaths` is the flattened output of the external
path enumerators (`getProductStaticPaths` / `getCategoryStaticPaths`),
which are collaborators outside this repository; the model takes their
result as an input and assumes the enumeration itself raised no error. -/
def revalidateAllHandler (method : Str) (allPaths : List Str)
    (outcome : Str → FetchOut) : ApiResponse RevalidateAllBody :=
  if !(method == chars "GET") && !(method == chars "POST") then
    .err 405 (chars "Method not allowed")
  else
    let uniquePaths := setDedup allPaths
    let r := runBatches outcome (chunksOf 10 uniquePaths)
    .ok { success := true
          message := chars "Revalidated " ++ natStr r.1 ++ chars " out of "
            ++ natStr uniquePaths.length ++ chars " paths"
          products := (uniquePaths.filter (fun p => (chars "/p/").isPrefixOf p)).length
          categories := (uniquePaths.filter
            (fun p => !(chars "/p/").isPrefixOf p && p != chars "/")).length
          total := r.1
          errors := if r.2.length > 0 then some (r.2.take 10) else Option.none }

/-- The error messages contributed by a single revalidation call. -/
def msgOf (p : Str) : FetchOut → List Str
  | .success => []
  | .httpError t => [failedMsg p t]
  | .thrown m => [errorMsg p m]

/-- A call succeeds exactly when its outcome is `success`. -/
def isSuccess : FetchOut → Bool
  | .success => true
  | _ => false

/-- Closed form of the accumulator fold: the count grows by the number of
successful calls, and one error message is appended per failed call, in
order. -/
theorem foldl_raStep (outcome : Str → FetchOut) (l : List Str) (acc : Nat × List Str) :
    l.foldl (raStep outcome) acc
      = (acc.1 + (l.filter (fun p => isSuccess (outcome p))).length,
         acc.2 ++ l.flatMap (fun p => msgOf p (outcome p))) := by
  induction l generalizing acc with
  | nil => simp
  | cons x xs ih =>
    rw [List.foldl_cons, ih]
    cases hx : outcome x <;>
      simp [raStep, hx, msgOf, isSuccess, List.filter_cons, Nat.add_comm, Nat.add_assoc,
        Nat.add_left_comm]

/-- Folding batch-by-batch is folding over the concatenation of the batches. -/
theorem runBatches_flatten (outcome : Str → FetchOut) (bs : List (List Str)) :
    runBatches outcome bs = bs.flatten.foldl (raStep outcome) (0, []) := by
  rw [runBatches]
  induction bs with
  | nil => simp
  | cons b bs ih =>
    rw [List.foldl_cons, List.flatten_cons, List.foldl_append]
    clear ih
    generalize b.foldl (raStep outcome) (0, []) = acc
    induction bs generalizing acc with
    | nil => simp
    | cons c cs ih2 =>
      rw [List.foldl_cons, List.flatten_cons, List.foldl_append, ih2]

/-- In a duplicate-free list every element occurs at most once. -/
theorem count_le_one_of_nodup {l : List Str} (h : l.Nodup) (a : Str) :
    l.count a ≤ 1 := by
  induction l with
  | nil => simp
  | cons x xs ih =>
    rcases List.nodup_cons.mp h with ⟨hx, hxs⟩
    rw [List.count_cons]
    by_cases hax : x = a
    · subst hax
      rw [List.count_eq_zero.mpr hx]
      simp
    · have : (x == a) = false := by simpa using hax
      rw [this]
      simpa using ih hxs

/-- C1: For every input path list given to the Batch Orchestrator of
`/api/revalidate-all`, each distinct path is dispatched to the revalidation
endpoint at most once, regardless of how many times it appeared in the
input list.  The dispatched calls are the concatenation of the batches of
the deduplicated list; every path of the input is dispatched, and none
more than once. -/
theorem c1_dedup_dispatch_at_most_once (l : List Str) (p : Str) :
    (chunksOf 10 (setDedup l)).flatten.count p ≤ 1
      ∧ (p ∈ (chunksOf 10 (setDedup l)).flatten ↔ p ∈ l) := by
  rw [chunksOf_join 10 (by decide)]
  exact ⟨count_le_one_of_nodup (nodup_setDedup l) p, mem_setDedup p l⟩

/-- C2: The batch loop of `/api/revalidate-all` partitions a deduplicated
list of length `L` into exactly `⌈L/10⌉` waves (their concatenation being
the list itself), and the event trace of the loop is sorted by wave index:
since each wave's block contains all of its issue events and all of its
settle events, and the trace is the concatenation of the blocks in order,
no call of a later wave is issued before every call of an earlier wave has
settled. -/
theorem c2_sequential_waves (l : List Str) :
    (chunksOf 10 l).length = (l.length + 9) / 10
      ∧ (chunksOf 10 l).flatten = l
      ∧ (batchTrace l).Pairwise (fun a b => a.1 ≤ b.1) := by
  refine ⟨?_, chunksOf_join 10 (by decide) l, traceFrom_pairwise 0 _⟩
  have h := chunksOf_length 10 (by decide) l
  simpa using h

/-- C3: the tag translator of `/api/revalidate` maps `product:<X>` to
exactly the single path `/p/<X>` and `category:<X>` to exactly the single
path `/<X>`, for every string `X`. -/
theorem c3_tag_translation (x : Str) :
    tagToPaths (chars "product:" ++ x) = [chars "/p/" ++ x]
      ∧ tagToPaths (chars "category:" ++ x) = [chars "/" ++ x] := by
  constructor
  · rw [tagToPaths]
    rw [if_pos (List.isPrefixOf_iff_prefix.mpr (List.prefix_append _ x))]
    rw [replaceFirst_at_start]
    rfl
  · rw [tagToPaths]
    have hnp : (chars "product:").isPrefixOf (chars "category:" ++ x) = false := by
      show (('p' :: chars "roduct:").isPrefixOf ('c' :: (chars "ategory:" ++ x))) = false
      rw [List.isPrefixOf]
      simp
    rw [hnp]
    simp only [Bool.false_eq_true, if_false]
    rw [if_pos (List.isPrefixOf_iff_prefix.mpr (List.prefix_append _ x))]
    rw [replaceFirst_at_start]
    rfl

/-- C4: Whenever `REVALIDATE_SECRET` is set (to a non-empty string — JS
truthiness of `process.env.REVALIDATE_SECRET`) and the request supplies
neither the `secret` query parameter nor the `x-revalidate-secret` header,
`/api/revalidate` responds 401 with an error body, regardless of the
method, the `tag`/`path` parameters, and the revalidation outcomes. -/
theorem c4_missing_secret_401 (method e : Str) (he : e ≠ [])
    (qtag qpath : QueryVal) (canRevalidate : Str → Bool) (now : Nat) :
    revalidateHandler method (some e) QueryVal.none Option.none qtag qpath
        canRevalidate now
      = .err 401 (chars "Invalid secret token") := by
  rw [revalidateHandler]
  have hacc : secretAccepts (some e) QueryVal.none Option.none = false := by
    rw [secretAccepts]
    have : e.isEmpty = false := by simpa using he
    rw [this]
    rfl
  rw [hacc]
  rfl

/-- Witness for C4 at a concrete request: secret `"s3cret"` configured, no
secret supplied, a `tag` parameter present. -/
theorem c4_missing_secret_401_witness :
    chars "s3cret" ≠ []
      ∧ revalidateHandler (chars "GET") (some (chars "s3cret")) QueryVal.none
          Option.none (QueryVal.str (chars "product:ABC")) QueryVal.none
          (fun _ => true) 7
        = .err 401 (chars "Invalid secret token") :=
  ⟨by decide,
   c4_missing_secret_401 (chars "GET") (chars "s3cret") (by decide)
     (QueryVal.str (chars "product:ABC")) QueryVal.none (fun _ => true) 7⟩

/-- C5: a webhook body `{entity:"product", action:"update", data:{sku:X}}`
with no `url_key` produces zero paths, and the handler responds 400 with
`{error:"Unknown entity type or missing path data"}`, whatever the sku and
the revalidation outcomes. -/
theorem c5_product_without_url_key_400 (sku : Str) (fetchOk : Str → Bool) :
    webhookPaths (chars "product")
        (some { WebhookData.empty with sku := some sku }) = []
      ∧ webhookHandler (chars "POST") (some (chars "product"))
          (some (chars "update"))
          (some { WebhookData.empty with sku := some sku }) fetchOk
        = .err 400 (chars "Unknown entity type or missing path data") := by
  have hpaths : webhookPaths (chars "product")
      (some { WebhookData.empty with sku := some sku }) = [] := by
    rw [webhookPaths]
    simp [WebhookData.empty, oTruthy]
  refine ⟨hpaths, ?_⟩
  rw [webhookHandler]
  simp only [hpaths]
  rfl

/-- C6: a webhook body `{entity:"page", action:"update",
data:{identifier:"about-us"}}` translates to exactly the path `/about-us`,
and when the revalidation call for that path succeeds the handler responds
`{success:true, message:"Revalidated 1 paths"}`. -/
theorem c6_page_identifier_revalidated (fetchOk : Str → Bool)
    (hok : fetchOk (chars "/about-us") = true) :
    webhookPaths (chars "page")
        (some { WebhookData.empty with identifier := some (chars "about-us") })
      = [chars "/about-us"]
      ∧ webhookHandler (chars "POST") (some (chars "page"))
          (some (chars "update"))
          (some { WebhookData.empty with identifier := some (chars "about-us") })
          fetchOk
        = .ok ⟨true, chars "Revalidated 1 paths"⟩ := by
  have hpaths : webhookPaths (chars "page")
      (some { WebhookData.empty with identifier := some (chars "about-us") })
      = [chars "/about-us"] := by
    rw [webhookPaths]
    simp [WebhookData.empty, oTruthy]
    decide
  refine ⟨hpaths, ?_⟩
  rw [webhookHandler]
  have hok' : fetchOk (chars "/" ++ chars "about-us") = true := hok
  simp [webhookPaths, WebhookData.empty, oTruthy, hok', List.filter, natStr,
    Nat.toDigits, Nat.toDigitsCore]
  decide

/-- Witness for C6 with an oracle on which every revalidation succeeds. -/
theorem c6_page_identifier_revalidated_witness :
    (fun _ : Str => true) (chars "/about-us") = true
      ∧ webhookHandler (chars "POST") (some (chars "page"))
          (some (chars "update"))
          (some { WebhookData.empty with identifier := some (chars "about-us") })
          (fun _ => true)
        = .ok ⟨true, chars "Revalidated 1 paths"⟩ :=
  ⟨rfl, (c6_page_identifier_revalidated (fun _ => true) rfl).2⟩

/-- C9: every path produced by a translator — from a composite tag in
`/api/revalidate`, or from any webhook entity/data combination in
`/api/webhook/magento` — begins with the character `/`. -/
theorem c9_paths_start_with_slash (t entity : Str) (data : Option WebhookData)
    (p : Str) :
    (p ∈ tagToPaths t → p.head? = some '/')
      ∧ (p ∈ webhookPaths entity data → p.head? = some '/') := by
  constructor
  · intro hp
    rw [tagToPaths] at hp
    split_ifs at hp <;> simp at hp <;> subst hp <;> rfl
  · intro hp
    rw [webhookPaths] at hp
    rcases List.mem_append.mp hp with hp | hp
    · rcases List.mem_append.mp hp with hp | hp
      · split_ifs at hp <;> simp at hp
        subst hp; rfl
      · split_ifs at hp with h1
        · by_cases h2 : (chars "/").isPrefixOf
              ((data.bind WebhookData.url_path).getD []) = true
          · simp [h2] at hp
            subst hp
            obtain ⟨s, hs⟩ := List.isPrefixOf_iff_prefix.mp h2
            rw [← hs]
            rfl
          · simp [h2] at hp
            subst hp
            rfl
        · simp at hp
    · split_ifs at hp <;> simp at hp
      subst hp; rfl

/-- Witness for C9: the translated product tag path and the webhook page
path both start with `/`. -/
theorem c9_paths_start_with_slash_witness :
    chars "/p/ABC" ∈ tagToPaths (chars "product:ABC")
      ∧ (chars "/p/ABC").head? = some '/'
      ∧ chars "/about-us" ∈ webhookPaths (chars "page")
          (some { WebhookData.empty with identifier := some (chars "about-us") })
      ∧ (chars "/about-us").head? = some '/' := by
  have h1 : chars "/p/ABC" ∈ tagToPaths (chars "product:ABC") := by decide
  have h2 : chars "/about-us" ∈ webhookPaths (chars "page")
      (some { WebhookData.empty with identifier := some (chars "about-us") }) := by
    decide
  exact ⟨h1,
    (c9_paths_start_with_slash (chars "product:ABC") (chars "page")
      (some { WebhookData.empty with identifier := some (chars "about-us") })
      (chars "/p/ABC")).1 h1,
    h2,
    (c9_paths_start_with_slash (chars "product:ABC") (chars "page")
      (some { WebhookData.empty with identifier := some (chars "about-us") })
      (chars "/about-us")).2 h2⟩

/-- C10: whenever a request to `/api/revalidate` supplies a truthy `path`
or `tag` parameter and passes the secret check, the response is the 200
JSON whose `revalidated` field is `true` — for every revalidation oracle,
including one on which every `res.revalidate` call fails; the boolean never
reflects per-path failure. -/
theorem c10_revalidated_always_true (method : Str) (env : Option Str)
    (qsecret : QueryVal) (hsecret : Option Str) (qtag qpath : QueryVal)
    (canRevalidate : Str → Bool) (now : Nat)
    (hacc : secretAccepts env qsecret hsecret = true)
    (hparam : qpath.truthy = true ∨ qtag.truthy = true) :
    ∃ b, revalidateHandler method env qsecret hsecret qtag qpath canRevalidate now
        = .ok b ∧ b.revalidated = true := by
  rw [revalidateHandler, if_pos hacc, revalidateCore]
  rcases hp : qpath.truthy with _ | _
  · rcases hparam with hparam | hparam
    · rw [hp] at hparam; cases hparam
    · rw [if_neg (by simp [hp]), if_pos hparam]
      exact ⟨_, rfl, rfl⟩
  · rw [if_pos rfl]
    exact ⟨_, rfl, rfl⟩

/-- Witness for C10: no secret configured, one `path` parameter, an oracle
on which every revalidation call fails — the body still has
`revalidated = true`. -/
theorem c10_revalidated_always_true_witness :
    ∃ b, revalidateHandler (chars "GET") Option.none QueryVal.none Option.none
        QueryVal.none (QueryVal.str (chars "/p/x")) (fun _ => false) 3
        = .ok b ∧ b.revalidated = true :=
  c10_revalidated_always_true (chars "GET") Option.none QueryVal.none
    Option.none QueryVal.none (QueryVal.str (chars "/p/x")) (fun _ => false) 3
    (by decide) (Or.inl (by decide))

/-- A `flatMap` in which one element of a duplicate-free list contributes
the singleton `[m]` and every other element contributes nothing flattens
to `[m]`. -/
theorem flatMap_eq_single (f : Str → List Str) (a : Str) (m : Str) :
    ∀ (l : List Str), l.Nodup → a ∈ l → f a = [m] →
      (∀ b ∈ l, b ≠ a → f b = []) → l.flatMap f = [m] := by
  intro l
  induction l with
  | nil => intro _ ha; cases ha
  | cons x xs ih =>
    intro hnd ha hfa hothers
    rcases List.nodup_cons.mp hnd with ⟨hx, hxs⟩
    rw [List.flatMap_cons]
    by_cases hxa : x = a
    · subst hxa
      have hnil : xs.flatMap f = [] := by
        rw [List.flatMap_eq_nil_iff]
        intro b hb
        exact hothers b (List.mem_cons_of_mem _ hb)
          (fun hba => hx (hba ▸ hb))
      rw [hfa, hnil, List.append_nil]
    · have hax : a ∈ xs := by
        rcases List.mem_cons.mp ha with h | h
        · exact absurd h.symm hxa
        · exact h
      rw [hothers x (List.mem_cons_self x xs) hxa, List.nil_append]
      exact ih hxs hax hfa (fun b hb => hothers b (List.mem_cons_of_mem _ hb))

/-- Filtering a duplicate-free list with a predicate that holds everywhere
except at one member keeps all but that one element. -/
theorem filter_length_all_but_one (f : Str → Bool) (a : Str) :
    ∀ (l : List Str), l.Nodup → a ∈ l → f a = false →
      (∀ b ∈ l, b ≠ a → f b = true) → (l.filter f).length = l.length - 1 := by
  intro l
  induction l with
  | nil => intro _ ha; cases ha
  | cons x xs ih =>
    intro hnd ha hfa hothers
    rcases List.nodup_cons.mp hnd with ⟨hx, hxs⟩
    rw [List.filter_cons]
    by_cases hxa : x = a
    · subst hxa
      rw [hfa]
      simp only [Bool.false_eq_true, if_false]
      have hall : xs.filter f = xs :=
        List.filter_eq_self.mpr (fun b hb =>
          hothers b (List.mem_cons_of_mem _ hb) (fun hba => hx (hba ▸ hb)))
      rw [hall]
      simp
    · have hax : a ∈ xs := by
        rcases List.mem_cons.mp ha with h | h
        · exact absurd h.symm hxa
        · exact h
      rw [hothers x (List.mem_cons_self x xs) hxa]
      simp only [if_true]
      have hlen : (xs.filter f).length = xs.length - 1 :=
        ih hxs hax hfa (fun b hb => hothers b (List.mem_cons_of_mem _ hb))
      have hpos : 0 < xs.length := List.length_pos.mpr (List.ne_nil_of_mem hax)
      simp only [List.length_cons, hlen]
      omega

/-- C7: in `/api/revalidate-all`, when exactly one (deduplicated) path
fails to revalidate and every other path succeeds, the handler still
responds with `success:true`; the `total` count equals the number of
successful paths (all but the failing one), and the `errors` field is
exactly the failing path's message — in particular the message is included
and at most 10 messages are returned. -/
theorem c7_partial_failure_aggregation (allPaths : List Str) (p t : Str)
    (outcome : Str → FetchOut)
    (hmem : p ∈ allPaths)
    (hfail : outcome p = FetchOut.httpError t)
    (hrest : ∀ q ∈ allPaths, q ≠ p → outcome q = FetchOut.success) :
    ∃ b, revalidateAllHandler (chars "GET") allPaths outcome = .ok b
      ∧ b.success = true
      ∧ b.total = ((setDedup allPaths).filter
          (fun q => isSuccess (outcome q))).length
      ∧ b.total = (setDedup allPaths).length - 1
      ∧ b.errors = some [failedMsg p t]
      ∧ ∀ es, b.errors = some es → failedMsg p t ∈ es ∧ es.length ≤ 10 := by
  have hpu : p ∈ setDedup allPaths := (mem_setDedup p allPaths).mpr hmem
  have hnd : (setDedup allPaths).Nodup := nodup_setDedup allPaths
  have hrun : runBatches outcome (chunksOf 10 (setDedup allPaths))
      = (((setDedup allPaths).filter (fun q => isSuccess (outcome q))).length,
         (setDedup allPaths).flatMap (fun q => msgOf q (outcome q))) := by
    rw [runBatches_flatten, chunksOf_join 10 (by decide), foldl_raStep]
    simp
  have herrs : (setDedup allPaths).flatMap (fun q => msgOf q (outcome q))
      = [failedMsg p t] :=
    flatMap_eq_single _ p (failedMsg p t) _ hnd hpu
      (by rw [hfail]; rfl)
      (fun b hb hbp => by
        rw [hrest b ((mem_setDedup b allPaths).mp hb) hbp]; rfl)
  have hlen : ((setDedup allPaths).filter
      (fun q => isSuccess (outcome q))).length = (setDedup allPaths).length - 1 :=
    filter_length_all_but_one _ p _ hnd hpu
      (by rw [hfail]; rfl)
      (fun b hb hbp => by
        rw [hrest b ((mem_setDedup b allPaths).mp hb) hbp]; rfl)
  rw [revalidateAllHandler, if_neg (by decide)]
  simp only [hrun, herrs]
  refine ⟨_, rfl, rfl, rfl, hlen, ?_, ?_⟩
  · simp
  · intro es hes
    simp only [List.length_singleton, gt_iff_lt, Nat.zero_lt_one, if_true,
      List.take_succ_cons, List.take_nil] at hes
    simp at hes
    subst hes
    exact ⟨List.mem_singleton_self _, by simp⟩

/-- Witness for C7: two paths, `/a` failing with body `boom`, `/b`
succeeding. -/
theorem c7_partial_failure_aggregation_witness :
    chars "/a" ∈ [chars "/a", chars "/b"]
      ∧ ∃ b, revalidateAllHandler (chars "GET") [chars "/a", chars "/b"]
          (fun q => if q = chars "/a" then FetchOut.httpError (chars "boom")
            else FetchOut.success) = .ok b
        ∧ b.success = true
        ∧ b.total = ((setDedup [chars "/a", chars "/b"]).filter
            (fun q => isSuccess ((fun q => if q = chars "/a"
              then FetchOut.httpError (chars "boom")
              else FetchOut.success) q))).length
        ∧ b.total = (setDedup [chars "/a", chars "/b"]).length - 1
        ∧ b.errors = some [failedMsg (chars "/a") (chars "boom")]
        ∧ ∀ es, b.errors = some es →
            failedMsg (chars "/a") (chars "boom") ∈ es ∧ es.length ≤ 10 :=
  ⟨by decide,
   c7_partial_failure_aggregation [chars "/a", chars "/b"] (chars "/a")
     (chars "boom")
     (fun q => if q = chars "/a" then FetchOut.httpError (chars "boom")
       else FetchOut.success)
     (by decide) (by decide) (by decide)⟩

/-- C8 counterexample: the claim "every endpoint responds 405 to an
unsupported HTTP method" fails for `/api/revalidate`, whose handler never
inspects `req.method`: a `DELETE` request without parameters (a method the
spec lists as unsupported for this GET|POST endpoint) is answered with
status 400, not 405. -/
theorem c8_counterexample_revalidate_no_method_check :
    (revalidateHandler (chars "DELETE") Option.none QueryVal.none Option.none
        QueryVal.none QueryVal.none (fun _ => false) 0).statusCode = 400
      ∧ (revalidateHandler (chars "DELETE") Option.none QueryVal.none
          Option.none QueryVal.none QueryVal.none (fun _ => false) 0).statusCode
        ≠ 405 := by
  constructor <;> decide

/-- C8 (amended): of the three endpoints, `/api/revalidate-all` responds
405 to any method other than GET and POST, and `/api/webhook/magento`
responds 405 to any method other than POST; `/api/revalidate` performs no
method check at all. -/
theorem c8_amended_method_not_allowed (method : Str) (allPaths : List Str)
    (outcome : Str → FetchOut) (entity action : Option Str)
    (data : Option WebhookData) (fetchOk : Str → Bool) :
    (method ≠ chars "GET" → method ≠ chars "POST" →
      (revalidateAllHandler method allPaths outcome).statusCode = 405)
      ∧ (method ≠ chars "POST" →
        (webhookHandler method entity action data fetchOk).statusCode = 405) := by
  constructor
  · intro hg hp
    rw [revalidateAllHandler]
    rw [if_pos (by simp [hg, hp])]
    rfl
  · intro hp
    rw [webhookHandler]
    rw [if_pos (by simp [hp])]
    rfl

/-- Witness for the amended C8 at method `DELETE`. -/
theorem c8_amended_method_not_allowed_witness :
    (revalidateAllHandler (chars "DELETE") [] (fun _ => FetchOut.success)).statusCode
        = 405
      ∧ (webhookHandler (chars "DELETE") Option.none Option.none Option.none
          (fun _ => true)).statusCode = 405 :=
  ⟨(c8_amended_method_not_allowed (chars "DELETE") [] (fun _ => FetchOut.success)
      Option.none Option.none Option.none (fun _ => true)).1 (by decide) (by decide),
   (c8_amended_method_not_allowed (chars "DELETE") [] (fun _ => FetchOut.success)
      Option.none Option.none Option.none (fun _ => true)).2 (by decide)⟩
